import Mathlib

/-!
Verification of the market-data API server (`src/main.py`).

Shallow embedding: the module-level `CACHE` dict becomes an explicit `Cache`
state threaded through `get_cached_market_data`; upstream calls
(`ak.stock_zh_a_spot_em`, `ak.stock_zh_a_hist`, `ak.stock_individual_fund_flow`)
become explicit arguments describing the outcome of the one call the handler
makes; pandas `Series.ewm(span, adjust=False).mean()` becomes `ewmMean` over
`List ℚ`; `DataFrame.dropna`/`sort_values`/`head` become
`List.filter`/`List.insertionSort`/`List.take`.  Time stamps and prices are
rationals (the claims under verification are about control flow and exact
recurrences, not float rounding).
-/

namespace StockApi

/-- An HTTP error raised via FastAPI `HTTPException`. -/
structure HTTPError where
  status : Nat
  detail : String
deriving DecidableEq, Repr

/-- The module-level `CACHE` dict of `src/main.py`: stored snapshot (or `none`),
the `last_update` timestamp and the `cache_duration` TTL. -/
structure Cache (α : Type) where
  market_data : Option α
  last_update : ℚ
  cache_duration : ℚ
deriving DecidableEq, Repr

/-- The initial module-level cache value: no data, `last_update = 0`,
`cache_duration = 600` seconds. -/
def CACHE0 (α : Type) : Cache α := ⟨none, 0, 600⟩

/-- Outcome of one call to `get_cached_market_data`: the returned value (or the
raised `HTTPException`), the cache state after the call, and how many upstream
fetches (`ak.stock_zh_a_spot_em()`) were attempted during the call. -/
structure CacheCallResult (α : Type) where
  ret : Except HTTPError (Option α)
  cache : Cache α
  fetches : Nat

/-- Embedding of `get_cached_market_data` (src/main.py lines 26-38).  `now` is
the value of `time.time()`; `fetch` is the outcome of the single upstream call
attempted in the refresh branch (`some df` = success, `none` = any exception). -/
def get_cached_market_data {α : Type} (c : Cache α) (now : ℚ) (fetch : Option α) :
    CacheCallResult α :=
  if c.market_data.isNone ∨ c.cache_duration < now - c.last_update then
    match fetch with
    | some df => ⟨.ok (some df), ⟨some df, now, c.cache_duration⟩, 1⟩
    | none =>
      if c.market_data.isNone then ⟨.error ⟨500, "数据源获取失败"⟩, c, 1⟩
      else ⟨.ok c.market_data, c, 1⟩
  else ⟨.ok c.market_data, c, 0⟩

/-- One step of `Series.ewm(span, adjust=False).mean()` after the seed: each
output is `(1 - a) * prev + a * x`, where `prev` is the previous output. -/
def ewmRun (a : ℚ) (prev : ℚ) : List ℚ → List ℚ
  | [] => []
  | x :: xs => ((1 - a) * prev + a * x) :: ewmRun a ((1 - a) * prev + a * x) xs

/-- Embedding of pandas `Series.ewm(span=s, adjust=False).mean()`: the
smoothing factor is `a = 2 / (s + 1)` and the first output equals the first
input (src/main.py lines 58-61 use spans 12, 26 and 9). -/
def ewmMean (span : ℚ) : List ℚ → List ℚ
  | [] => []
  | x :: xs => x :: ewmRun (2 / (span + 1)) x xs

/-- Embedding of Python `round(·, 3)`: round to the nearest multiple of
`1/1000` (tie behavior is immaterial to the claims). -/
def round3 (q : ℚ) : ℚ := ((round (q * 1000) : ℤ) : ℚ) / 1000

/-- The `dif` series of src/main.py line 60: `ema12 - ema26` elementwise. -/
def macdDif (closes : List ℚ) : List ℚ :=
  List.zipWith (fun a b => a - b) (ewmMean 12 closes) (ewmMean 26 closes)

/-- The `dea` series of src/main.py line 61: EMA of `dif` with span 9. -/
def macdDea (closes : List ℚ) : List ℚ := ewmMean 9 (macdDif closes)

/-- The `macd_hist` series of src/main.py line 62: `(dif - dea) * 2`. -/
def macdHistL (closes : List ℚ) : List ℚ :=
  List.zipWith (fun a b => (a - b) * 2) (macdDif closes) (macdDea closes)

/-- The MACD triple the handler reports (src/main.py lines 55-69): on a
non-empty series the last element of each of `dif`, `dea`, `macd_hist`
rounded to 3 decimals, and `(0, 0, 0)` on an empty series. -/
def macdOf (closes : List ℚ) : ℚ × ℚ × ℚ :=
  if closes.isEmpty then (0, 0, 0)
  else (round3 ((macdDif closes).getLastD 0),
        round3 ((macdDea closes).getLastD 0),
        round3 ((macdHistL closes).getLastD 0))

/-- JSON payload of `/api/stock/price` (src/main.py lines 48-87): `code` is
always present; the five indicator fields are present exactly when
`detail=true` was requested. -/
structure StockPriceResult where
  code : String
  macd_dif : Option ℚ
  macd_dea : Option ℚ
  macd_hist : Option ℚ
  super_in : Option ℚ
  large_in : Option ℚ
deriving DecidableEq, Repr

/-- Fund-flow defaulting of src/main.py lines 73-82: any failure of the
fund-flow sub-fetch, or an empty fund-flow table, yields `(0, 0)`; otherwise
the last row's `(超大单净流入-净额, 大单净流入-净额)` pair is used. -/
def fundOf (fundFetch : Except String (List (ℚ × ℚ))) : ℚ × ℚ :=
  match fundFetch with
  | .error _ => (0, 0)
  | .ok rows =>
    match rows.getLast? with
    | none => (0, 0)
    | some p => p

/-- Embedding of the `/api/stock/price` handler `get_stock_price`
(src/main.py lines 42-87).  `histFetch` is the outcome of
`ak.stock_zh_a_hist` (already reduced to the `收盘` column); `fundFetch` the
outcome of `ak.stock_individual_fund_flow` (reduced to the two net-inflow
columns per row).  A failed history fetch hits the outer `except` and raises
HTTP 500; a failed fund-flow fetch is swallowed by the inner `except`. -/
def get_stock_price (code : String) (detail : Bool)
    (histFetch : Except String (List ℚ))
    (fundFetch : Except String (List (ℚ × ℚ))) :
    Except HTTPError StockPriceResult :=
  if detail then
    match histFetch with
    | .error e => .error ⟨500, "深度指标计算失败: " ++ e⟩
    | .ok closes =>
      .ok ⟨code, some (macdOf closes).1, some (macdOf closes).2.1,
           some (macdOf closes).2.2, some (fundOf fundFetch).1,
           some (fundOf fundFetch).2⟩
  else
    .ok ⟨code, none, none, none, none, none⟩

/-- One row of the full-market snapshot DataFrame, reduced to the columns
`get_rps_top` touches: `代码`, `名称`, `60日涨跌幅`, `年初至今涨跌幅`.
A `none` entry models a NaN cell. -/
structure Row where
  code : String
  name : String
  chg60 : Option ℚ
  chgYtd : Option ℚ
deriving DecidableEq, Repr

/-- The full-market snapshot DataFrame: its rows, plus whether each of the
two ranking columns is present in the schema at all (`sort_col in
df.columns`). -/
structure Snapshot where
  has60 : Bool
  hasYtd : Bool
  rows : List Row
deriving DecidableEq, Repr

/-- One entry of the `top_stocks` array built at src/main.py lines 113-119. -/
structure TopStock where
  code : String
  name : String
  increase_rate : ℚ
deriving DecidableEq, Repr

/-- The success payload of `/api/rps/top/{period}` (src/main.py line 121). -/
structure RpsResult where
  period : ℤ
  count : ℕ
  top_stocks : List TopStock
deriving DecidableEq, Repr

/-- The body returned by the `get_rps_top` handler: either the normal payload
or the `{"error": ...}` dict of src/main.py line 105.  Both are plain return
values, which FastAPI serves with HTTP status 200. -/
inductive RpsResponse where
  | errJson : String → RpsResponse
  | okJson : RpsResult → RpsResponse
deriving DecidableEq, Repr

/-- The HTTP status FastAPI attaches to a value returned (not raised) by a
handler: always 200. -/
def httpStatusOf : RpsResponse → ℕ := fun _ => 200

/-- Column choice of src/main.py lines 99-102: `true` means the `60日涨跌幅`
column, `false` the `年初至今涨跌幅` column. -/
def sortColIs60 (period : ℤ) : Bool := period ≤ 60

/-- The name of the chosen ranking column. -/
def colName (use60 : Bool) : String :=
  if use60 then "60日涨跌幅" else "年初至今涨跌幅"

/-- A row's value in the chosen ranking column (`none` = NaN). -/
def colVal (use60 : Bool) (r : Row) : Option ℚ :=
  if use60 then r.chg60 else r.chgYtd

/-- Whether the chosen ranking column exists in the snapshot's schema. -/
def hasCol (use60 : Bool) (s : Snapshot) : Bool :=
  if use60 then s.has60 else s.hasYtd

/-- Descending comparison used by `sort_values(by=sort_col, ascending=False)`:
row `a` may precede row `b` when `b`'s column value is at most `a`'s. -/
def rpsRel (use60 : Bool) (a b : Row) : Prop :=
  (colVal use60 b).getD 0 ≤ (colVal use60 a).getD 0

instance (use60 : Bool) : DecidableRel (rpsRel use60) := fun a b => by
  unfold rpsRel
  infer_instance

instance (use60 : Bool) : IsTotal Row (rpsRel use60) :=
  ⟨fun a b => le_total ((colVal use60 b).getD 0) ((colVal use60 a).getD 0)⟩

instance (use60 : Bool) : IsTrans Row (rpsRel use60) :=
  ⟨fun _ _ _ h1 h2 => le_trans h2 h1⟩

/-- The `dropna(subset=[sort_col])` step of src/main.py line 108. -/
def rpsKept (use60 : Bool) (s : Snapshot) : List Row :=
  s.rows.filter (fun r => (colVal use60 r).isSome)

/-- The `sort_values(by=sort_col, ascending=False)` step of line 108 (pandas
leaves tie order unspecified; any sort is a faithful model). -/
def rpsSorted (use60 : Bool) (s : Snapshot) : List Row :=
  (rpsKept use60 s).insertionSort (rpsRel use60)

/-- The `head(limit)` truncation plus the result-row construction of
src/main.py lines 111-119. -/
def rpsTop (use60 : Bool) (s : Snapshot) (limit : ℕ) : List TopStock :=
  ((rpsSorted use60 s).take limit).map
    (fun r => ⟨r.code, r.name, (colVal use60 r).getD 0⟩)

/-- Embedding of the `/api/rps/top/{period}` handler `get_rps_top`
(src/main.py lines 91-121), applied to the snapshot `df` obtained from the
cache. -/
def get_rps_top (s : Snapshot) (period : ℤ) (limit : ℕ) : RpsResponse :=
  let use60 := sortColIs60 period
  if hasCol use60 s = false then
    .errJson ("数据源缺失 " ++ colName use60 ++ " 字段")
  else
    .okJson ⟨period, (rpsTop use60 s limit).length, rpsTop use60 s limit⟩

/-- The snapshot of the spec's ranking example: four rows whose `60日涨跌幅`
values are `[5, NaN, 9, 1]`. -/
def exampleSnapshot : Snapshot :=
  ⟨true, true,
   [⟨"000001", "甲", some 5, none⟩,
    ⟨"000002", "乙", none, none⟩,
    ⟨"000003", "丙", some 9, none⟩,
    ⟨"000004", "丁", some 1, none⟩]⟩

/-- Modelled from the spec: the full per-symbol bundle endpoint
`GET /api/stock/{code}` of spec §4.4/§6 is not present in `src/main.py`
(only 129 of the repository's 234 lines are available); per the spec it
"fails with not-found if the symbol is absent from the realtime snapshot",
surfaced as HTTP 404. -/
def stock_detail_lookup (s : Snapshot) (code : String) : Except HTTPError Row :=
  match s.rows.find? (fun r => r.code == code) with
  | none => .error ⟨404, "未找到股票代码"⟩
  | some r => .ok r

/-- Modelled from the spec: the Retry Wrapper of spec §4.1 is not present in
`src/main.py` (it belongs to the repository lines missing from src/).
`call i` is the outcome of the `i`-th attempt (0-based); `delay` the fixed
sleep in seconds between failed attempts; `maxR` the maximum attempt count.
Returns the final outcome together with the total seconds slept.  Per the
spec, after `maxR` failed attempts it fails with a message reporting the
attempt count and the last underlying error; at least one attempt is made
even when `maxR ≤ 1`. -/
def retryAux {α : Type} (call : ℕ → Except String α) (delay maxR i : ℕ) :
    Except String α × ℕ :=
  match call i with
  | .ok v => (.ok v, 0)
  | .error e =>
    if h : i + 1 < maxR then
      let rest := retryAux call delay maxR (i + 1)
      (rest.1, delay + rest.2)
    else
      (.error ("获取失败，已重试 " ++ toString maxR ++ " 次，最后错误: " ++ e), 0)
termination_by maxR - i
decreasing_by omega

/-- Modelled from the spec: the Retry Wrapper entry point with the spec's
constants — at most 3 attempts, 10 seconds between failures. -/
def retry_with_delay {α : Type} (call : ℕ → Except String α) : Except String α × ℕ :=
  retryAux call 10 3 0

/-- A concrete upstream call that fails on its first two attempts and then
succeeds with `42`. -/
def callTwoFailThenOk : ℕ → Except String ℕ := fun i =>
  if i = 0 then .error "连接超时0"
  else if i = 1 then .error "连接超时1"
  else .ok 42

/-- A concrete upstream call that fails on every attempt. -/
def callAllFail : ℕ → Except String ℕ := fun i =>
  if i = 0 then .error "连接超时0"
  else if i = 1 then .error "连接超时1"
  else .error "连接超时2"

/-- Evaluation lemma: the fresh path (stored data present and not expired)
serves the stored value with no fetch. -/
lemma gcmd_fresh {α : Type} (c : Cache α) (now : ℚ) (fetch : Option α)
    (h1 : ¬ c.market_data.isNone = true)
    (h2 : now - c.last_update ≤ c.cache_duration) :
    get_cached_market_data c now fetch = ⟨.ok c.market_data, c, 0⟩ := by
  unfold get_cached_market_data
  rw [if_neg]
  push_neg
  exact ⟨h1, not_lt.mp (not_lt.mpr h2)⟩

/-- Evaluation lemma: in the refresh branch a successful fetch stores the new
snapshot and stamps `last_update := now`. -/
lemma gcmd_refresh_ok {α : Type} (c : Cache α) (now : ℚ) (df : α)
    (h : c.market_data.isNone = true ∨ c.cache_duration < now - c.last_update) :
    get_cached_market_data c now (some df) =
      ⟨.ok (some df), ⟨some df, now, c.cache_duration⟩, 1⟩ := by
  unfold get_cached_market_data
  rw [if_pos h]

/-- Evaluation lemma: in the refresh branch a failed fetch with no stored data
raises HTTP 500 and leaves the cache unchanged. -/
lemma gcmd_refresh_fail_empty {α : Type} (c : Cache α) (now : ℚ)
    (h : c.market_data.isNone = true ∨ c.cache_duration < now - c.last_update)
    (hnone : c.market_data.isNone = true) :
    get_cached_market_data c now none = ⟨.error ⟨500, "数据源获取失败"⟩, c, 1⟩ := by
  unfold get_cached_market_data
  rw [if_pos h, if_pos hnone]

/-- Evaluation lemma: in the refresh branch a failed fetch with stored data
serves the stale stored value and leaves the cache unchanged. -/
lemma gcmd_refresh_fail_stale {α : Type} (c : Cache α) (now : ℚ)
    (h : c.market_data.isNone = true ∨ c.cache_duration < now - c.last_update)
    (hnone : ¬ c.market_data.isNone = true) :
    get_cached_market_data c now none = ⟨.ok c.market_data, c, 1⟩ := by
  unfold get_cached_market_data
  rw [if_pos h, if_neg hnone]

/-- Every call in the refresh branch attempts exactly one upstream fetch. -/
lemma gcmd_stale_fetches_once {α : Type} (c : Cache α) (now : ℚ) (fetch : Option α)
    (h : c.market_data = none ∨ c.cache_duration < now - c.last_update) :
    (get_cached_market_data c now fetch).fetches = 1 := by
  have hcond : c.market_data.isNone = true ∨ c.cache_duration < now - c.last_update := by
    rcases h with h | h
    · left; rw [h]; rfl
    · right; exact h
  cases fetch with
  | some df => rw [gcmd_refresh_ok c now df hcond]
  | none =>
    by_cases hnone : c.market_data.isNone = true
    · rw [gcmd_refresh_fail_empty c now hcond hnone]
    · rw [gcmd_refresh_fail_stale c now hcond hnone]

/-- C1: a read within `cache_duration` of a successful fetch returns the stored
snapshot unchanged with no upstream fetch; a read after expiry (or with no
stored snapshot) attempts exactly one upstream fetch, whatever its outcome. -/
theorem cache_fresh_serves_without_fetch_and_stale_fetches_once {α : Type}
    (c : Cache α) (now : ℚ) (fetch : Option α) (df : α)
    (hdata : c.market_data = some df)
    (hfresh : now - c.last_update ≤ c.cache_duration) :
    get_cached_market_data c now fetch = ⟨.ok (some df), c, 0⟩ ∧
    ∀ c' : Cache α, ∀ now' : ℚ, ∀ fetch' : Option α,
      (c'.market_data = none ∨ c'.cache_duration < now' - c'.last_update) →
      (get_cached_market_data c' now' fetch').fetches = 1 := by
  constructor
  · have h1 : ¬ c.market_data.isNone = true := by rw [hdata]; simp
    rw [gcmd_fresh c now fetch h1 hfresh, hdata]
  · intro c' now' fetch' hstale
    exact gcmd_stale_fetches_once c' now' fetch' hstale

/-- Witness for C1 at a concrete cache: snapshot `7` fetched at time 100, read
at time 400 (fresh), then the staleness half applied at time 1000. -/
theorem cache_fresh_serves_without_fetch_and_stale_fetches_once_witness :
    get_cached_market_data (⟨some 7, 100, 600⟩ : Cache ℕ) 400 (some 9) =
      ⟨.ok (some 7), ⟨some 7, 100, 600⟩, 0⟩ ∧
    (get_cached_market_data (⟨some 7, 100, 600⟩ : Cache ℕ) 1000 (some 9)).fetches = 1 := by
  have h := cache_fresh_serves_without_fetch_and_stale_fetches_once
    (⟨some 7, 100, 600⟩ : Cache ℕ) 400 (some 9) 7 rfl (by norm_num)
  exact ⟨h.1, h.2 ⟨some 7, 100, 600⟩ 1000 (some 9) (Or.inr (by norm_num))⟩

/-- C2: when the refresh attempt fails, a previously stored snapshot is served
stale with no error; with no stored snapshot the call fails with HTTP 500. -/
theorem cache_failed_refresh_serves_stale_or_500 {α : Type}
    (c : Cache α) (now : ℚ) (df : α)
    (hstale : c.cache_duration < now - c.last_update) :
    (c.market_data = some df →
      get_cached_market_data c now none = ⟨.ok (some df), c, 1⟩) ∧
    (c.market_data = none →
      get_cached_market_data c now none = ⟨.error ⟨500, "数据源获取失败"⟩, c, 1⟩) := by
  constructor
  · intro hdata
    have hnone : ¬ c.market_data.isNone = true := by rw [hdata]; simp
    rw [gcmd_refresh_fail_stale c now (Or.inr hstale) hnone, hdata]
  · intro hdata
    have hnone : c.market_data.isNone = true := by rw [hdata]; rfl
    exact gcmd_refresh_fail_empty c now (Or.inr hstale) hnone

/-- Witness for C2: stale cache holding `7` at an expired time serves `7` on a
failed refresh; the empty cache raises HTTP 500 on a failed refresh. -/
theorem cache_failed_refresh_serves_stale_or_500_witness :
    get_cached_market_data (⟨some 7, 100, 600⟩ : Cache ℕ) 1000 none =
      ⟨.ok (some 7), ⟨some 7, 100, 600⟩, 1⟩ ∧
    get_cached_market_data (⟨none, 100, 600⟩ : Cache ℕ) 1000 none =
      ⟨.error ⟨500, "数据源获取失败"⟩, ⟨none, 100, 600⟩, 1⟩ := by
  refine ⟨?_, ?_⟩
  · exact (cache_failed_refresh_serves_stale_or_500 (⟨some 7, 100, 600⟩ : Cache ℕ)
      1000 7 (by norm_num)).1 rfl
  · exact (cache_failed_refresh_serves_stale_or_500 (⟨none, 100, 600⟩ : Cache ℕ)
      1000 7 (by norm_num)).2 rfl

/-- C10: a failed upstream fetch leaves the cache state exactly as it was
(`market_data` and `last_update` both unchanged), so a later read at a time
when the data is still missing or stale attempts the upstream fetch again. -/
theorem cache_unchanged_on_failed_fetch {α : Type} (c : Cache α) (now : ℚ) :
    (get_cached_market_data c now none).cache = c ∧
    ∀ now' : ℚ,
      (c.market_data = none ∨ c.cache_duration < now' - c.last_update) →
      (get_cached_market_data (get_cached_market_data c now none).cache now' none).fetches
        = 1 := by
  have hcache : (get_cached_market_data c now none).cache = c := by
    by_cases hcond : c.market_data.isNone = true ∨ c.cache_duration < now - c.last_update
    · by_cases hnone : c.market_data.isNone = true
      · rw [gcmd_refresh_fail_empty c now hcond hnone]
      · rw [gcmd_refresh_fail_stale c now hcond hnone]
    · push_neg at hcond
      rw [gcmd_fresh c now none hcond.1 hcond.2]
  refine ⟨hcache, ?_⟩
  intro now' hstale
  rw [hcache]
  exact gcmd_stale_fetches_once c now' none hstale

/-- Witness for C10: a failed refresh of the stale cache holding `7` leaves it
unchanged, and the immediately following stale read fetches again. -/
theorem cache_unchanged_on_failed_fetch_witness :
    (get_cached_market_data (⟨some 7, 100, 600⟩ : Cache ℕ) 1000 none).cache =
      ⟨some 7, 100, 600⟩ ∧
    (get_cached_market_data
      (get_cached_market_data (⟨some 7, 100, 600⟩ : Cache ℕ) 1000 none).cache
      1200 none).fetches = 1 := by
  have h := cache_unchanged_on_failed_fetch (⟨some 7, 100, 600⟩ : Cache ℕ) 1000
  exact ⟨h.1, h.2 1200 (Or.inr (by norm_num))⟩

/-- C8: an empty fetched history makes the handler report all three MACD
fields as `0.0` (while still succeeding with the `code` field). -/
theorem empty_history_gives_zero_macd (code : String)
    (ff : Except String (List (ℚ × ℚ))) :
    get_stock_price code true (.ok []) ff =
      .ok ⟨code, some 0, some 0, some 0, some (fundOf ff).1, some (fundOf ff).2⟩ := rfl

/-- Counterexample to C4 as stated: a failing MACD sub-computation (the
history fetch inside the MACD block raising) aborts the whole request with
HTTP 500 instead of defaulting the fields to zero. -/
theorem macd_failure_aborts_with_500_counterexample :
    get_stock_price "600000" true (.error "接口超时") (.ok [(1, 2)]) =
      .error ⟨500, "深度指标计算失败: 接口超时"⟩ := rfl

/-- C4 (amended): a fund-flow sub-fetch failure never aborts the primary
payload — the two fund fields default to zero and the request succeeds with
the `code` field present — but a failure in the MACD block (the history
fetch raising) aborts the request with HTTP 500. -/
theorem fund_failure_swallowed_macd_failure_aborts :
    (∀ (code : String) (closes : List ℚ) (msg : String),
      get_stock_price code true (.ok closes) (.error msg) =
        .ok ⟨code, some (macdOf closes).1, some (macdOf closes).2.1,
             some (macdOf closes).2.2, some 0, some 0⟩) ∧
    (∀ (code e : String) (ff : Except String (List (ℚ × ℚ))),
      get_stock_price code true (.error e) ff =
        .error ⟨500, "深度指标计算失败: " ++ e⟩) :=
  ⟨fun _ _ _ => rfl, fun _ _ _ => rfl⟩

/-- Length of `ewmRun` matches its input. -/
lemma ewmRun_length (a : ℚ) (xs : List ℚ) : ∀ prev : ℚ,
    (ewmRun a prev xs).length = xs.length := by
  induction xs with
  | nil => intro prev; rfl
  | cons x xs ih => intro prev; simp [ewmRun, ih]

/-- Length of `ewmMean` matches its input. -/
lemma ewmMean_length (s : ℚ) (xs : List ℚ) : (ewmMean s xs).length = xs.length := by
  cases xs with
  | nil => rfl
  | cons x xs => simp [ewmMean, ewmRun_length]

/-- An EWM run seeded with the constant of a constant series stays constant. -/
lemma ewmRun_replicate (a x : ℚ) : ∀ m : ℕ,
    ewmRun a x (List.replicate m x) = List.replicate m x := by
  intro m
  induction m with
  | zero => rfl
  | succ k ih =>
    have hx : (1 - a) * x + a * x = x := by ring
    simp only [List.replicate_succ, ewmRun, hx]
    rw [ih]

/-- The EWM of a constant series is that constant series. -/
lemma ewmMean_replicate (s x : ℚ) (n : ℕ) :
    ewmMean s (List.replicate n x) = List.replicate n x := by
  cases n with
  | zero => rfl
  | succ k =>
    simp only [List.replicate_succ, ewmMean]
    rw [ewmRun_replicate]

/-- Zipping two constant series applies the function pointwise. -/
lemma zipWith_replicate_eq (f : ℚ → ℚ → ℚ) (x y : ℚ) : ∀ n : ℕ,
    List.zipWith f (List.replicate n x) (List.replicate n y) =
      List.replicate n (f x y) := by
  intro n
  induction n with
  | zero => rfl
  | succ k ih =>
    simp only [List.replicate_succ, List.zipWith]
    rw [ih]

/-- The `dif` series of a constant price series is constantly zero. -/
lemma macdDif_replicate (x : ℚ) (n : ℕ) :
    macdDif (List.replicate n x) = List.replicate n 0 := by
  unfold macdDif
  rw [ewmMean_replicate, ewmMean_replicate, zipWith_replicate_eq]
  simp

/-- The `dea` series of a constant price series is constantly zero. -/
lemma macdDea_replicate (x : ℚ) (n : ℕ) :
    macdDea (List.replicate n x) = List.replicate n 0 := by
  unfold macdDea
  rw [macdDif_replicate, ewmMean_replicate]

/-- The `macd_hist` series of a constant price series is constantly zero. -/
lemma macdHistL_replicate (x : ℚ) (n : ℕ) :
    macdHistL (List.replicate n x) = List.replicate n 0 := by
  unfold macdHistL
  rw [macdDif_replicate, macdDea_replicate, zipWith_replicate_eq]
  simp

/-- Reading anywhere in a constantly-zero list gives zero. -/
lemma getD_replicate_zero (n t : ℕ) : (List.replicate n (0 : ℚ)).getD t 0 = 0 := by
  induction n generalizing t with
  | zero => rfl
  | succ k ih =>
    cases t with
    | zero => rfl
    | succ u =>
      simp only [List.replicate_succ, List.getD_cons_succ]
      exact ih u

/-- The last element of a constantly-zero list is zero. -/
lemma getLastD_replicate_zero (n : ℕ) : (List.replicate n (0 : ℚ)).getLastD 0 = 0 := by
  induction n with
  | zero => rfl
  | succ k ih =>
    simp only [List.replicate_succ, List.getLastD_cons]
    exact ih

/-- Variant of `getLastD_replicate_zero` stated through `getLast?`. -/
lemma getLastQ_replicate_zero (n : ℕ) :
    (List.replicate n (0 : ℚ)).getLast?.getD 0 = 0 := by
  rw [← List.getLastD_eq_getLast?]
  exact getLastD_replicate_zero n

/-- Rounding zero to three decimals gives zero. -/
lemma round3_zero : round3 0 = 0 := by simp [round3]

/-- C9: on a constant closing-price series of length at least 2, `dif`, `dea`
and `hist` are all `0` at every timestep after the first (and the handler's
final rounded MACD triple is `(0, 0, 0)`). -/
theorem macd_constant_series_all_zero (x : ℚ) (n t : ℕ)
    (hn : 2 ≤ n) (ht0 : 0 < t) (htn : t < n) :
    (macdDif (List.replicate n x)).getD t 0 = 0 ∧
    (macdDea (List.replicate n x)).getD t 0 = 0 ∧
    (macdHistL (List.replicate n x)).getD t 0 = 0 ∧
    macdOf (List.replicate n x) = (0, 0, 0) := by
  refine ⟨?_, ?_, ?_, ?_⟩
  · rw [macdDif_replicate]; exact getD_replicate_zero n t
  · rw [macdDea_replicate]; exact getD_replicate_zero n t
  · rw [macdHistL_replicate]; exact getD_replicate_zero n t
  · cases n with
    | zero => omega
    | succ k =>
      have hne : (List.replicate (k + 1) x).isEmpty = false := by
        simp [List.replicate_succ]
      simp [macdOf, hne, macdDif_replicate, macdDea_replicate, macdHistL_replicate,
        getLastD_replicate_zero, getLastQ_replicate_zero, round3_zero]

/-- Witness for C9 at the constant series `[10, 10]` and timestep 1. -/
theorem macd_constant_series_all_zero_witness :
    (2 ≤ 2 ∧ 0 < 1 ∧ 1 < 2) ∧
    ((macdDif (List.replicate 2 (10 : ℚ))).getD 1 0 = 0 ∧
     (macdDea (List.replicate 2 (10 : ℚ))).getD 1 0 = 0 ∧
     (macdHistL (List.replicate 2 (10 : ℚ))).getD 1 0 = 0 ∧
     macdOf (List.replicate 2 (10 : ℚ)) = (0, 0, 0)) :=
  ⟨by norm_num,
   macd_constant_series_all_zero 10 2 1 (by norm_num) (by norm_num) (by norm_num)⟩

/-- The EWM run satisfies the recursive EMA step
`y[t+1] = y[t] + a * (x[t+1] - y[t])` at every interior index. -/
lemma ewmRun_getD_succ (a : ℚ) : ∀ (xs : List ℚ) (prev : ℚ) (t : ℕ),
    t + 1 < xs.length →
    (ewmRun a prev xs).getD (t + 1) 0 =
      (ewmRun a prev xs).getD t 0 +
        a * (xs.getD (t + 1) 0 - (ewmRun a prev xs).getD t 0) := by
  intro xs
  induction xs with
  | nil => intro prev t h; simp at h
  | cons x xs ih =>
    intro prev t h
    cases t with
    | zero =>
      cases xs with
      | nil => simp at h
      | cons z rest =>
        simp only [ewmRun, List.getD_cons_succ, List.getD_cons_zero]
        ring
    | succ u =>
      simp only [ewmRun, List.getD_cons_succ]
      exact ih ((1 - a) * prev + a * x) u (by simpa using h)

/-- The EWM of a non-empty series is seeded with the first input. -/
lemma ewmMean_getD_zero (s : ℚ) (l : List ℚ) (h : l ≠ []) :
    (ewmMean s l).getD 0 0 = l.getD 0 0 := by
  cases l with
  | nil => exact absurd rfl h
  | cons x xs => rfl

/-- The EWM with span `s` satisfies the spec recurrence
`ema[t+1] = ema[t] + (2/(s+1)) * (price[t+1] - ema[t])`. -/
lemma ewmMean_getD_succ (s : ℚ) (xs : List ℚ) (t : ℕ) (h : t + 1 < xs.length) :
    (ewmMean s xs).getD (t + 1) 0 =
      (ewmMean s xs).getD t 0 +
        (2 / (s + 1)) * (xs.getD (t + 1) 0 - (ewmMean s xs).getD t 0) := by
  cases xs with
  | nil => simp at h
  | cons x xs =>
    cases t with
    | zero =>
      cases xs with
      | nil => simp at h
      | cons z rest =>
        simp only [ewmMean, ewmRun, List.getD_cons_succ, List.getD_cons_zero]
        ring
    | succ u =>
      simp only [ewmMean, List.getD_cons_succ]
      exact ewmRun_getD_succ (2 / (s + 1)) xs x u (by simpa using h)

/-- Reading inside a `zipWith` applies the function to the two reads. -/
lemma getD_zipWith (f : ℚ → ℚ → ℚ) : ∀ (as bs : List ℚ) (t : ℕ),
    t < as.length → t < bs.length →
    (List.zipWith f as bs).getD t 0 = f (as.getD t 0) (bs.getD t 0) := by
  intro as
  induction as with
  | nil => intro bs t h _; simp at h
  | cons a as ih =>
    intro bs t ha hb
    cases bs with
    | nil => simp at hb
    | cons b bs =>
      cases t with
      | zero => rfl
      | succ u =>
        simp only [List.zipWith_cons_cons, List.getD_cons_succ]
        exact ih bs u (by simpa using ha) (by simpa using hb)

/-- `dif` has the length of the input series. -/
lemma macdDif_length (closes : List ℚ) : (macdDif closes).length = closes.length := by
  unfold macdDif
  rw [List.length_zipWith, ewmMean_length, ewmMean_length, min_self]

/-- `dea` has the length of the input series. -/
lemma macdDea_length (closes : List ℚ) : (macdDea closes).length = closes.length := by
  unfold macdDea
  rw [ewmMean_length, macdDif_length]

/-- `macd_hist` has the length of the input series. -/
lemma macdHistL_length (closes : List ℚ) : (macdHistL closes).length = closes.length := by
  unfold macdHistL
  rw [List.length_zipWith, macdDif_length, macdDea_length, min_self]

/-- On a non-empty list, the last element is the read at index `length - 1`. -/
lemma getLastD_eq_getD_pred (l : List ℚ) (h : l ≠ []) :
    l.getLastD 0 = l.getD (l.length - 1) 0 := by
  rw [List.getLastD_eq_getLast?, List.getLast?_eq_get?]
  rfl

/-- C3: the MACD computation of `get_stock_price` matches the reference
definition: both EMAs are seeded with the first price and satisfy
`ema[t+1] = ema[t] + (2/(span+1)) * (price[t+1] - ema[t])` for spans 12 and
26; `dif = ema12 - ema26` pointwise; `dea` is the span-9 EMA of `dif` under
the same recurrence; `hist = (dif - dea) * 2` pointwise; and the reported
triple is the final-timestep values of `dif`, `dea`, `hist` each rounded to
3 decimal places. -/
theorem macd_matches_reference_definition (closes : List ℚ) (hne : closes ≠ []) :
    ((ewmMean 12 closes).length = closes.length ∧
     (ewmMean 26 closes).length = closes.length ∧
     (macdDif closes).length = closes.length ∧
     (macdDea closes).length = closes.length ∧
     (macdHistL closes).length = closes.length) ∧
    ((ewmMean 12 closes).getD 0 0 = closes.getD 0 0 ∧
     (ewmMean 26 closes).getD 0 0 = closes.getD 0 0 ∧
     (macdDea closes).getD 0 0 = (macdDif closes).getD 0 0) ∧
    (∀ t, t + 1 < closes.length →
      (ewmMean 12 closes).getD (t + 1) 0 =
        (ewmMean 12 closes).getD t 0 +
          (2 / (12 + 1)) * (closes.getD (t + 1) 0 - (ewmMean 12 closes).getD t 0)) ∧
    (∀ t, t + 1 < closes.length →
      (ewmMean 26 closes).getD (t + 1) 0 =
        (ewmMean 26 closes).getD t 0 +
          (2 / (26 + 1)) * (closes.getD (t + 1) 0 - (ewmMean 26 closes).getD t 0)) ∧
    (∀ t, t < closes.length →
      (macdDif closes).getD t 0 =
        (ewmMean 12 closes).getD t 0 - (ewmMean 26 closes).getD t 0) ∧
    (∀ t, t + 1 < closes.length →
      (macdDea closes).getD (t + 1) 0 =
        (macdDea closes).getD t 0 +
          (2 / (9 + 1)) * ((macdDif closes).getD (t + 1) 0 - (macdDea closes).getD t 0)) ∧
    (∀ t, t < closes.length →
      (macdHistL closes).getD t 0 =
        ((macdDif closes).getD t 0 - (macdDea closes).getD t 0) * 2) ∧
    macdOf closes =
      (round3 ((macdDif closes).getD (closes.length - 1) 0),
       round3 ((macdDea closes).getD (closes.length - 1) 0),
       round3 ((macdHistL closes).getD (closes.length - 1) 0)) := by
  have hdif_ne : macdDif closes ≠ [] := by
    apply List.ne_nil_of_length_pos
    rw [macdDif_length]
    exact List.length_pos.mpr hne
  have hdea_ne : macdDea closes ≠ [] := by
    apply List.ne_nil_of_length_pos
    rw [macdDea_length]
    exact List.length_pos.mpr hne
  have hhist_ne : macdHistL closes ≠ [] := by
    apply List.ne_nil_of_length_pos
    rw [macdHistL_length]
    exact List.length_pos.mpr hne
  refine ⟨⟨ewmMean_length 12 closes, ewmMean_length 26 closes, macdDif_length closes,
      macdDea_length closes, macdHistL_length closes⟩, ⟨?_, ?_, ?_⟩, ?_, ?_, ?_, ?_, ?_, ?_⟩
  · exact ewmMean_getD_zero 12 closes hne
  · exact ewmMean_getD_zero 26 closes hne
  · exact ewmMean_getD_zero 9 (macdDif closes) hdif_ne
  · intro t ht
    have h := ewmMean_getD_succ 12 closes t ht
    norm_num at h ⊢
    exact h
  · intro t ht
    have h := ewmMean_getD_succ 26 closes t ht
    norm_num at h ⊢
    exact h
  · intro t ht
    unfold macdDif
    exact getD_zipWith _ (ewmMean 12 closes) (ewmMean 26 closes) t
      (by rw [ewmMean_length]; exact ht) (by rw [ewmMean_length]; exact ht)
  · intro t ht
    have h := ewmMean_getD_succ 9 (macdDif closes) t (by rw [macdDif_length]; exact ht)
    norm_num at h ⊢
    exact h
  · intro t ht
    unfold macdHistL
    exact getD_zipWith _ (macdDif closes) (macdDea closes) t
      (by rw [macdDif_length]; exact ht) (by rw [macdDea_length]; exact ht)
  · have hemp : closes.isEmpty = false := by
      cases closes with
      | nil => exact absurd rfl hne
      | cons x xs => rfl
    unfold macdOf
    rw [hemp]
    simp only [Bool.false_eq_true, if_false]
    rw [getLastD_eq_getD_pred _ hdif_ne, getLastD_eq_getD_pred _ hdea_ne,
      getLastD_eq_getD_pred _ hhist_ne, macdDif_length, macdDea_length, macdHistL_length]

/-- Witness for C3 at the concrete series `[1, 2]`: the reported triple is
the rounded final-timestep value of each derived series. -/
theorem macd_matches_reference_definition_witness :
    (([1, 2] : List ℚ) ≠ []) ∧
    macdOf [1, 2] =
      (round3 ((macdDif [1, 2]).getD 1 0),
       round3 ((macdDea [1, 2]).getD 1 0),
       round3 ((macdHistL [1, 2]).getD 1 0)) :=
  ⟨by decide, by
    simpa using (macd_matches_reference_definition [1, 2] (by decide)).2.2.2.2.2.2.2⟩

/-- The chosen column value in claim form (`if period ≤ 60`) agrees with the
Bool-driven selection the handler uses. -/
lemma colVal_sortColIs60 (period : ℤ) (r : Row) :
    colVal (sortColIs60 period) r = if period ≤ 60 then r.chg60 else r.chgYtd := by
  by_cases hp : period ≤ 60 <;> simp [colVal, sortColIs60, hp]

/-- An `isSome` option equals `some` of its default read. -/
lemma option_eq_some_getD (o : Option ℚ) (h : o.isSome = true) : o = some (o.getD 0) := by
  cases o with
  | none => simp at h
  | some v => rfl

/-- C6: with the ranking column present, the handler succeeds; the count
equals the number of returned rows; that number is `limit` capped by the
number of rows with a non-missing value in the chosen column; the returned
rows are sorted descending by that value; each comes from a snapshot row
whose chosen column (60-day change iff `period ≤ 60`, else year-to-date) is
non-missing and supplies `increase_rate`; when `limit` covers all kept rows
the returned values are exactly the non-missing column values; and on the
spec's example (`60日涨跌幅` values `[5, NaN, 9, 1]`, `period = 60`,
`limit = 2`) the rows valued `9` then `5` are returned with count 2. -/
theorem rps_top_selects_sorts_and_limits (s : Snapshot) (period : ℤ) (limit : ℕ)
    (hcol : hasCol (sortColIs60 period) s = true) :
    (∃ res : RpsResult,
      get_rps_top s period limit = .okJson res ∧
      res.period = period ∧
      res.count = res.top_stocks.length ∧
      res.top_stocks.length = min limit (rpsKept (sortColIs60 period) s).length ∧
      List.Sorted (fun a b : TopStock => b.increase_rate ≤ a.increase_rate)
        res.top_stocks ∧
      (∀ ts ∈ res.top_stocks, ∃ r ∈ s.rows,
        r.code = ts.code ∧ r.name = ts.name ∧
        (if period ≤ 60 then r.chg60 else r.chgYtd) = some ts.increase_rate) ∧
      ((rpsKept (sortColIs60 period) s).length ≤ limit →
        (res.top_stocks.map (fun ts => ts.increase_rate)).Perm
          ((rpsKept (sortColIs60 period) s).map
            (fun r => (colVal (sortColIs60 period) r).getD 0)))) ∧
    get_rps_top exampleSnapshot 60 2 =
      .okJson ⟨60, 2, [⟨"000003", "丙", 9⟩, ⟨"000001", "甲", 5⟩]⟩ := by
  constructor
  · have hne : ¬ hasCol (sortColIs60 period) s = false := by rw [hcol]; simp
    refine ⟨⟨period, (rpsTop (sortColIs60 period) s limit).length,
      rpsTop (sortColIs60 period) s limit⟩, ?_, rfl, rfl, ?_, ?_, ?_, ?_⟩
    · simp only [get_rps_top]
      rw [if_neg hne]
    · unfold rpsTop
      rw [List.length_map, List.length_take]
      unfold rpsSorted
      rw [List.Perm.length_eq (List.perm_insertionSort (rpsRel (sortColIs60 period))
        (rpsKept (sortColIs60 period) s))]
    · unfold rpsTop
      rw [List.Sorted, List.pairwise_map]
      have hsorted : List.Sorted (rpsRel (sortColIs60 period))
          (rpsSorted (sortColIs60 period) s) :=
        List.sorted_insertionSort (rpsRel (sortColIs60 period))
          (rpsKept (sortColIs60 period) s)
      exact List.Pairwise.sublist (List.take_sublist limit _) hsorted
    · intro ts hts
      unfold rpsTop at hts
      rw [List.mem_map] at hts
      obtain ⟨r, hr, hts⟩ := hts
      have hr2 : r ∈ rpsSorted (sortColIs60 period) s :=
        (List.take_sublist limit _).mem hr
      have hr3 : r ∈ rpsKept (sortColIs60 period) s :=
        (List.perm_insertionSort (rpsRel (sortColIs60 period)) _).mem_iff.mp hr2
      unfold rpsKept at hr3
      rw [List.mem_filter] at hr3
      subst hts
      refine ⟨r, hr3.1, rfl, rfl, ?_⟩
      rw [← colVal_sortColIs60]
      exact option_eq_some_getD _ hr3.2
    · intro hlen
      unfold rpsTop
      have htake : (rpsSorted (sortColIs60 period) s).take limit =
          rpsSorted (sortColIs60 period) s := by
        apply List.take_of_length_le
        unfold rpsSorted
        rw [List.Perm.length_eq (List.perm_insertionSort (rpsRel (sortColIs60 period))
          (rpsKept (sortColIs60 period) s))]
        exact hlen
      rw [htake, List.map_map]
      exact List.Perm.map (fun r => (colVal (sortColIs60 period) r).getD 0)
        (List.perm_insertionSort (rpsRel (sortColIs60 period)) _)
  · decide

/-- Witness for C6: the theorem applied to the spec's example snapshot with
`period = 60` and `limit = 2`. -/
theorem rps_top_selects_sorts_and_limits_witness :
    hasCol (sortColIs60 60) exampleSnapshot = true ∧
    (∃ res : RpsResult,
      get_rps_top exampleSnapshot 60 2 = .okJson res ∧
      res.period = 60 ∧
      res.count = res.top_stocks.length ∧
      res.top_stocks.length = min 2 (rpsKept (sortColIs60 60) exampleSnapshot).length ∧
      List.Sorted (fun a b : TopStock => b.increase_rate ≤ a.increase_rate)
        res.top_stocks ∧
      (∀ ts ∈ res.top_stocks, ∃ r ∈ exampleSnapshot.rows,
        r.code = ts.code ∧ r.name = ts.name ∧
        (if (60 : ℤ) ≤ 60 then r.chg60 else r.chgYtd) = some ts.increase_rate) ∧
      ((rpsKept (sortColIs60 60) exampleSnapshot).length ≤ 2 →
        (res.top_stocks.map (fun ts => ts.increase_rate)).Perm
          ((rpsKept (sortColIs60 60) exampleSnapshot).map
            (fun r => (colVal (sortColIs60 60) r).getD 0)))) :=
  ⟨by decide, (rps_top_selects_sorts_and_limits exampleSnapshot 60 2 (by decide)).1⟩

/-- Counterexample to C7 as stated: when the `60日涨跌幅` column is absent
from the snapshot, `get_rps_top` returns the `{"error": ...}` dict as a
normal return value, which FastAPI serves with HTTP 200 — a success
response, not a 4xx client error. -/
theorem missing_column_success_response_counterexample :
    get_rps_top ⟨false, true, [⟨"000001", "甲", some 5, some 3⟩]⟩ 60 10 =
      .errJson "数据源缺失 60日涨跌幅 字段" ∧
    httpStatusOf (get_rps_top ⟨false, true, [⟨"000001", "甲", some 5, some 3⟩]⟩ 60 10) =
      200 := by
  refine ⟨?_, rfl⟩
  decide

/-- C7 (amended): a missing ranking column is surfaced immediately as an
error-message JSON body, but served as an HTTP 200 success response rather
than a 4xx; the unknown-symbol case of the per-symbol bundle endpoint (an
endpoint absent from src/, modelled from the spec) is surfaced as HTTP 404. -/
theorem missing_data_error_surfacing (s : Snapshot) (period : ℤ) (limit : ℕ)
    (code : String)
    (hcol : hasCol (sortColIs60 period) s = false)
    (habsent : ∀ r ∈ s.rows, r.code ≠ code) :
    get_rps_top s period limit =
      .errJson ("数据源缺失 " ++ colName (sortColIs60 period) ++ " 字段") ∧
    httpStatusOf (get_rps_top s period limit) = 200 ∧
    stock_detail_lookup s code = .error ⟨404, "未找到股票代码"⟩ := by
  refine ⟨?_, rfl, ?_⟩
  · simp only [get_rps_top]
    rw [if_pos hcol]
  · unfold stock_detail_lookup
    have hfind : s.rows.find? (fun r => r.code == code) = none := by
      rw [List.find?_eq_none]
      intro r hr
      simpa using habsent r hr
    rw [hfind]

/-- Witness for C7 (amended) at a concrete snapshot lacking the 60-day
column and a symbol absent from its rows. -/
theorem missing_data_error_surfacing_witness :
    hasCol (sortColIs60 60) (⟨false, true, [⟨"000001", "甲", some 5, some 3⟩]⟩ : Snapshot)
      = false ∧
    (get_rps_top ⟨false, true, [⟨"000001", "甲", some 5, some 3⟩]⟩ 60 10 =
      .errJson ("数据源缺失 " ++ colName (sortColIs60 60) ++ " 字段") ∧
    httpStatusOf (get_rps_top ⟨false, true, [⟨"000001", "甲", some 5, some 3⟩]⟩ 60 10)
      = 200 ∧
    stock_detail_lookup ⟨false, true, [⟨"000001", "甲", some 5, some 3⟩]⟩ "999999" =
      .error ⟨404, "未找到股票代码"⟩) :=
  ⟨by decide,
   missing_data_error_surfacing ⟨false, true, [⟨"000001", "甲", some 5, some 3⟩]⟩ 60 10
     "999999" (by decide) (by decide)⟩

/-- C5: the Retry Wrapper (modelled from the spec) invokes the call and
succeeds immediately on a first-attempt success with no delay; a failure is
retried after the fixed 10-second delay; two failures then a success yield
the successful result after exactly two delays (20 seconds); and three
failures yield a permanent error whose message reports the attempt count 3
and the last underlying failure's message. -/
theorem retry_wrapper_contract {α : Type} (call : ℕ → Except String α) :
    (∀ v : α, call 0 = .ok v → retry_with_delay call = (.ok v, 0)) ∧
    (∀ (e0 : String) (v : α), call 0 = .error e0 → call 1 = .ok v →
      retry_with_delay call = (.ok v, 10)) ∧
    (∀ (e0 e1 : String) (v : α), call 0 = .error e0 → call 1 = .error e1 →
      call 2 = .ok v → retry_with_delay call = (.ok v, 20)) ∧
    (∀ e0 e1 e2 : String, call 0 = .error e0 → call 1 = .error e1 →
      call 2 = .error e2 →
      retry_with_delay call =
        (.error ("获取失败，已重试 " ++ toString (3 : ℕ) ++ " 次，最后错误: " ++ e2),
         20)) := by
  refine ⟨?_, ?_, ?_, ?_⟩
  · intro v h0
    unfold retry_with_delay
    unfold retryAux
    rw [h0]
  · intro e0 v h0 h1
    unfold retry_with_delay
    unfold retryAux
    rw [h0]
    norm_num
    unfold retryAux
    rw [h1]
    norm_num
  · intro e0 e1 v h0 h1 h2
    unfold retry_with_delay
    unfold retryAux
    rw [h0]
    norm_num
    unfold retryAux
    rw [h1]
    norm_num
    unfold retryAux
    rw [h2]
    norm_num
  · intro e0 e1 e2 h0 h1 h2
    unfold retry_with_delay
    unfold retryAux
    rw [h0]
    norm_num
    unfold retryAux
    rw [h1]
    norm_num
    unfold retryAux
    rw [h2]
    norm_num

/-- Witness for C5: a call failing twice then succeeding with `42` returns
`42` after exactly two 10-second delays, and a call failing on all three
attempts fails with the message reporting 3 attempts and the last error. -/
theorem retry_wrapper_contract_witness :
    (callTwoFailThenOk 0 = .error "连接超时0" ∧
     callTwoFailThenOk 1 = .error "连接超时1" ∧
     callTwoFailThenOk 2 = .ok 42 ∧
     retry_with_delay callTwoFailThenOk = (.ok 42, 20)) ∧
    (callAllFail 0 = .error "连接超时0" ∧
     callAllFail 2 = .error "连接超时2" ∧
     retry_with_delay callAllFail =
       (.error ("获取失败，已重试 " ++ toString (3 : ℕ) ++ " 次，最后错误: " ++
          "连接超时2"), 20)) :=
  ⟨⟨rfl, rfl, rfl,
    (retry_wrapper_contract callTwoFailThenOk).2.2.1 "连接超时0" "连接超时1" 42
      rfl rfl rfl⟩,
   ⟨rfl, rfl,
    (retry_wrapper_contract callAllFail).2.2.2 "连接超时0" "连接超时1" "连接超时2"
      rfl rfl rfl⟩⟩

end StockApi
